import Mathlib

set_option maxRecDepth 8192

/-!
# Verification of the CheersMate command-execution and error-normalization layer

Shallow embedding of `src/backend/brew/service.go` and the HTTP error mapping
of the api package (`handleBrewError`, `HandleDoctor`, `SearchPackages`).

Go strings are modelled as Lean `String`; Go `len` on a string (a byte count)
is modelled by `goStrLen`, the sum of the UTF-8 sizes of the characters.
Go byte-index slicing `s[:n]` is modelled by character-based `takeChars`
(the two agree on ASCII data, which is all the claims exercise).
Go slices of strings are modelled by `GoStrSlice`, which records nil-ness:
a Go `var xs []string` is the nil slice and JSON-marshals to `null`, while
`[]string{}` is non-nil and marshals to `[]`.
-/

namespace CheersMate

/-! ## String helpers (models of Go string builtins) -/

/-- Model of Go `len(s)` for a string: the UTF-8 byte length. -/
def goStrLen (s : String) : Nat :=
  s.data.foldl (fun n c => n + c.utf8Size) 0

/-- Model of Go `s[:n]` slicing, at character granularity (agrees with the
byte-based Go slice on ASCII data). -/
def takeChars (n : Nat) (s : String) : String :=
  String.mk (s.data.take n)

/-- Model of Go `strings.ToLower` (ASCII letters; the inputs involved are ASCII). -/
def lowerAscii (s : String) : String :=
  String.mk (s.data.map Char.toLower)

/-- Model of Go `strings.HasPrefix`. -/
def strStarts (s pat : String) : Bool :=
  List.isPrefixOf pat.data s.data

/-- Helper for substring search: does `pat` occur contiguously in the list? -/
def listSeek (pat : List Char) : List Char → Bool
  | [] => pat.isEmpty
  | c :: cs => List.isPrefixOf pat (c :: cs) || listSeek pat cs

/-- Model of Go `strings.Contains`. -/
def strContains (s sub : String) : Bool :=
  listSeek sub.data s.data

/-- Model of Go `strings.Split(s, "\n")`. -/
def splitOnChar (sep : Char) (s : String) : List String :=
  (s.data.foldr
    (fun c acc =>
      match acc with
      | cur :: rest => if c = sep then [] :: cur :: rest else (c :: cur) :: rest
      | [] => [[c]])
    [[]]).map String.mk

/-- Model of Go `strings.TrimSpace`. -/
def trimSpace (s : String) : String :=
  String.mk (((s.data.dropWhile Char.isWhitespace).reverse.dropWhile Char.isWhitespace).reverse)

/-- Helper for `strFields`: split a character list into maximal runs of
non-whitespace characters (`cur` holds the current run, reversed). -/
def fieldsAux : List Char → List Char → List (List Char)
  | [], cur => if cur.isEmpty then [] else [cur.reverse]
  | c :: cs, cur =>
    if Char.isWhitespace c then
      if cur.isEmpty then fieldsAux cs [] else cur.reverse :: fieldsAux cs []
    else
      fieldsAux cs (c :: cur)

/-- Model of Go `strings.Fields`: the whitespace-separated tokens of `s`. -/
def strFields (s : String) : List String :=
  (fieldsAux s.data []).map String.mk

/-! ## Error taxonomy (service.go: ValidationError, CommandError, TimeoutError,
plus the "anything else" catch-all used by the HTTP layer) -/

/-- The error taxonomy of the brew package. `timeoutDur` is the configured
timeout duration (Go `time.Duration`, modelled as a `Nat`). `other` stands for
any error outside the three typed kinds (e.g. a JSON decode failure). -/
inductive BrewError where
  | validation (field value message : String)
  | timeout (command : String) (timeoutDur : Nat)
  | command (command : String) (args : List String) (stderr : String)
  | other (message : String)
deriving DecidableEq

/-! ## Input validator (service.go lines 73-117) -/

def maxPackageNameLength : Nat := 128

def isAlnumChar (c : Char) : Bool :=
  ('a' ≤ c && c ≤ 'z') || ('A' ≤ c && c ≤ 'Z') || ('0' ≤ c && c ≤ '9')

def isNameTailChar (c : Char) : Bool :=
  isAlnumChar c || c = '@' || c = '.' || c = '_' || c = '+' || c = '-'

/-- Model of `packageNameRegex.MatchString` for the anchored regex
`^[a-zA-Z0-9][a-zA-Z0-9@._+-]*$`. -/
def packageNameRegexMatches (s : String) : Bool :=
  match s.data with
  | [] => false
  | c :: rest => isAlnumChar c && rest.all isNameTailChar

/-- service.go `validatePackageName`. Returns `none` on success. -/
def validatePackageName (name : String) : Option BrewError :=
  if name = "" then
    some (.validation "name" "" "package name is required")
  else if goStrLen name > maxPackageNameLength then
    some (.validation "name" (takeChars 20 name ++ "...")
      ("package name exceeds maximum length of " ++ toString maxPackageNameLength))
  else if !packageNameRegexMatches name then
    some (.validation "name" name
      "package name contains invalid characters; must match pattern: ^[a-zA-Z0-9][a-zA-Z0-9@._+-]*$")
  else
    none

/-! ## Process runner (service.go `runBrewCommand`, lines 577-612) -/

/-- The observable behaviour of one external `brew` process: how long it would
run, what it would exit with, and what it writes to stdout/stderr. -/
structure ProcSim where
  duration : Nat
  exitCode : Nat
  stdout : String
  stderr : String
deriving DecidableEq

/-- service.go: stderr is truncated to 1024 bytes with a marker when longer. -/
def truncateStderr (s : String) : String :=
  if goStrLen s > 1024 then takeChars 1024 s ++ "... (truncated)" else s

/-- service.go `runBrewCommand`. `commandTimeout` is the governing deadline
(the caller's context deadline intersected with `config.CommandTimeout`).
If the deadline expires before the process finishes (`commandTimeout <
p.duration`), `cmd.Output()` fails with the context in `DeadlineExceeded`
state and a `TimeoutError` is produced; otherwise a nonzero exit produces a
`CommandError` carrying the truncated stderr; a clean exit returns stdout. -/
def runBrewCommand (commandTimeout : Nat) (args : List String) (p : ProcSim) :
    Except BrewError String :=
  if commandTimeout < p.duration then
    .error (.timeout (String.intercalate " " args) commandTimeout)
  else if p.exitCode ≠ 0 then
    .error (.command (args.headD "") (args.drop 1) (truncateStderr p.stderr))
  else
    .ok p.stdout

/-! ## Doctor-output parser (service.go `parseDoctorOutput`, lines 323-375) -/

/-- One parsed issue from `brew doctor` output. -/
structure DoctorIssue where
  type : String
  message : String
deriving DecidableEq

/-- service.go: an accumulated issue is an "error" when its text
case-insensitively contains "error", else a "warning". -/
def classifyIssueType (currentIssue : String) : String :=
  if strContains (lowerAscii currentIssue) "error" then "error" else "warning"

/-- The body of the `for _, line := range lines` loop of `parseDoctorOutput`:
state is the emitted issues so far plus the current accumulator. -/
def parseDoctorStep (issues : List DoctorIssue) (currentIssue : String) (rawLine : String) :
    List DoctorIssue × String :=
  let line := trimSpace rawLine
  if line = "" then
    if currentIssue ≠ "" then
      (issues ++ [⟨classifyIssueType currentIssue, currentIssue⟩], "")
    else
      (issues, currentIssue)
  else if strStarts line "Warning:" || strStarts line "Error:" then
    if currentIssue ≠ "" then
      (issues ++ [⟨classifyIssueType currentIssue, currentIssue⟩], line)
    else
      (issues, line)
  else if currentIssue ≠ "" then
    (issues, currentIssue ++ " " ++ line)
  else
    (issues, currentIssue)

/-- service.go `parseDoctorOutput`: split on newlines, run the line loop,
flush any remaining accumulator at end of input. -/
def parseDoctorOutput (output : String) : List DoctorIssue :=
  let st := (splitOnChar '\n' output).foldl (fun st l => parseDoctorStep st.1 st.2 l) ([], "")
  if st.2 ≠ "" then st.1 ++ [⟨classifyIssueType st.2, st.2⟩] else st.1

/-! ## Doctor operation (service.go `Doctor`, lines 298-314, and the
`HandleDoctor` HTTP handler's isHealthy computation) -/

/-- service.go `Doctor`, as a function of the outcome of
`runBrewCommand(ctx, "doctor")`: a `CommandError` is swallowed and its
captured stderr becomes the text to parse; any other error propagates;
on success the stdout is parsed. Returns (raw text, issues). -/
def Doctor (runResult : Except BrewError String) :
    Except BrewError (String × List DoctorIssue) :=
  match runResult with
  | .error e =>
    match e with
    | .command _ _ stderr => .ok (stderr, parseDoctorOutput stderr)
    | _ => .error e
  | .ok output => .ok (output, parseDoctorOutput output)

/-- `HandleDoctor` (api package): `"isHealthy": len(issues) == 0`. -/
def doctorIsHealthy (issues : List DoctorIssue) : Bool :=
  issues.length == 0

/-! ## Go string slices with nil-ness, and the search parser
(service.go `parseSearchOutput`, lines 498-517) -/

/-- A Go `[]string` value: `isNil` distinguishes the nil slice (`var xs
[]string`, JSON `null`) from a non-nil slice (JSON array). -/
structure GoStrSlice where
  isNil : Bool
  elems : List String
deriving DecidableEq

/-- Go nil slice (`var results []string`). -/
def GoStrSlice.nilSlice : GoStrSlice := ⟨true, []⟩

/-- Go explicit empty slice (`[]string{}`). -/
def GoStrSlice.emptySlice : GoStrSlice := ⟨false, []⟩

/-- Go `append(s, x)`: the result of append is always non-nil. -/
def GoStrSlice.push (s : GoStrSlice) (x : String) : GoStrSlice :=
  ⟨false, s.elems ++ [x]⟩

/-- Models Go encoding/json marshaling of a `[]string`: a nil slice marshals
to `null`, a non-nil slice to a JSON array. -/
def marshalStrSlice (s : GoStrSlice) : String :=
  if s.isNil then "null"
  else "[" ++ String.intercalate "," (s.elems.map (fun e => "\x22" ++ e ++ "\x22")) ++ "]"

/-- The `SearchPackages` HTTP handler's normalization before serializing:
`if results == nil { results = []string{} }`. -/
def normalizeStrSlice (s : GoStrSlice) : GoStrSlice :=
  if s.isNil then GoStrSlice.emptySlice else s

/-- The body of the `for _, field := range fields` loop of
`parseSearchOutput`. The Go code tracks seen tokens in a `seen` map whose
keys are exactly the tokens already appended to `results`; membership in
`results.elems` is therefore the same test. -/
def searchStep (results : GoStrSlice) (field : String) : GoStrSlice :=
  if field = "==>" || field = "Formulae" || field = "Casks" then results
  else if results.elems.contains field then results
  else results.push field

/-- service.go `parseSearchOutput`: whitespace tokens, headers discarded,
first-occurrence dedup, starting from the nil slice (`var results []string`). -/
def parseSearchOutput (output : String) : GoStrSlice :=
  (strFields output).foldl searchStep GoStrSlice.nilSlice

/-- Written from the spec's words, for comparison with `parseSearchOutput`:
"deduplicates by first occurrence while preserving first-seen order";
`seen` is the set of tokens already kept. -/
def dedupFirstOrder (seen : List String) : List String → List String
  | [] => []
  | x :: xs =>
    if x ∈ seen then dedupFirstOrder seen xs
    else x :: dedupFirstOrder (x :: seen) xs

/-! ## Search operation (service.go `Search`, lines 471-496) -/

/-- service.go `Search`, as a function of the query and of the outcome of
`runBrewCommand(ctx, "search", query)`. The empty query short-circuits to the
nil slice with no error; an over-long query fails validation; a
`CommandError` from the process (matched by `isCommandError`, a direct type
assertion) is treated as zero matches (`[]string{}`); any other error
propagates; otherwise the output is parsed. -/
def Search (query : String) (runResult : Except BrewError String) :
    Except BrewError GoStrSlice :=
  if query = "" then
    .ok GoStrSlice.nilSlice
  else if goStrLen query > maxPackageNameLength then
    .error (.validation "query" (takeChars 20 query ++ "...") "search query too long")
  else
    match runResult with
    | .error e =>
      match e with
      | .command _ _ _ => .ok GoStrSlice.emptySlice
      | _ => .error e
    | .ok output => .ok (parseSearchOutput output)

/-! ## HTTP error mapping (api package `handleBrewError`, part_000 lines 198-231) -/

/-- The JSON error payload plus status code written by the api package. -/
structure APIErrorResponse where
  status : Nat
  code : String
  message : String
  details : Option (List (String × String))
deriving DecidableEq

/-- api `handleBrewError`: the `errors.As` switch over the taxonomy, in
source order (validation, timeout, command, default). -/
def handleBrewError : BrewError → APIErrorResponse
  | .validation field _ message =>
    ⟨400, "VALIDATION_ERROR", message, some [("field", field)]⟩
  | .timeout _ _ =>
    ⟨504, "TIMEOUT", "Operation timed out. The Homebrew command took too long to complete.", none⟩
  | .command _ _ _ =>
    ⟨500, "INTERNAL_ERROR", "Homebrew command failed. Check server logs for details.", none⟩
  | .other _ =>
    ⟨500, "INTERNAL_ERROR", "An unexpected error occurred.", none⟩

/-! ## Usage/doc lookup (service.go `GetPackageUsage`, lines 530-546) -/

/-- The straight-line fallback tail of `GetPackageUsage`: run `brew info`;
if it fails (any error kind) return the apologetic text, else wrap the output
with the explanatory preamble. Never an error. -/
def brewInfoFallback (infoResult : Except BrewError String) : Except BrewError String :=
  match infoResult with
  | .error _ => .ok "No usage examples found. 'brew info' also failed."
  | .ok output =>
    .ok ("No community cheat sheet found. Showing 'brew info' output:\n\n" ++ output)

/-- service.go `GetPackageUsage`, as a function of the name, the outcome of
`fetchCheatSheet` (whose errors are plain errors, not taxonomy ones), and the
outcome of `runBrewCommand(ctx, "info", name)`. The cheat sheet is used only
when the fetch succeeded, is non-empty, and lacks the "Unknown topic" marker. -/
def GetPackageUsage (name : String) (cheatResult : Except String String)
    (infoResult : Except BrewError String) : Except BrewError String :=
  match validatePackageName name with
  | some e => .error e
  | none =>
    match cheatResult with
    | .ok cheatSheet =>
      if cheatSheet ≠ "" && !strContains cheatSheet "Unknown topic" then
        .ok cheatSheet
      else
        brewInfoFallback infoResult
    | .error _ => brewInfoFallback infoResult

/-! ## Package listing (service.go `ListInstalled`, lines 194-226) -/

/-- One entry of a package's `installed` array (brew JSON v2). Go decodes
`"time"` into an `int64`. -/
structure InstalledVersion where
  version : String
  installedOnRequest : Bool
  installedAsDependency : Bool
  installedTime : Int
deriving DecidableEq

/-- service.go `Package` (the fields carried through `ListInstalled`). -/
structure Package where
  name : String
  fullName : String
  desc : String
  homepage : String
  stableVersion : String
  installed : List InstalledVersion
  outdated : Bool
  pinned : Bool
  dependencies : List String
  buildDependencies : List String
  caveats : String
  conflictsWith : List String
  installedSize : Int
  installDate : String
  isCask : Bool
deriving DecidableEq

/-- service.go `brewInfoResponse`: the decoded `brew info --installed
--json=v2` document. -/
structure brewInfoResponse where
  formulae : List Package
  casks : List Package
deriving DecidableEq

/-- Two-digit zero padding for date fields. -/
def pad2 (n : Nat) : String :=
  if n < 10 then "0" ++ toString n else toString n

/-- Four-digit zero padding for the year. -/
def pad4 (n : Int) : String :=
  if n < 0 then "-" ++ toString (-n)
  else if n < 10 then "000" ++ toString n
  else if n < 100 then "00" ++ toString n
  else if n < 1000 then "0" ++ toString n
  else toString n

/-- Civil date from a count of days since 1970-01-01 (proleptic Gregorian),
used to model Go's time formatting. Returns (year, month, day). -/
def civilFromDays (z0 : Int) : Int × Int × Int :=
  let z := z0 + 719468
  let era := (if z ≥ 0 then z else z - 146096) / 146097
  let doe := z - era * 146097
  let yoe := (doe - doe / 1460 + doe / 36524 - doe / 146096) / 365
  let y := yoe + era * 400
  let doy := doe - (365 * yoe + yoe / 4 - yoe / 100)
  let mp := (5 * doy + 2) / 153
  let d := doy - (153 * mp + 2) / 5 + 1
  let m := if mp < 10 then mp + 3 else mp - 9
  (if m ≤ 2 then y + 1 else y, m, d)

/-- Models Go `time.Unix(t, 0).Format(time.RFC3339)`: an RFC-3339 timestamp
for `t` seconds since the Unix epoch, rendered in UTC. -/
def rfc3339Format (t : Int) : String :=
  let days := (if t ≥ 0 then t / 86400 else (t - 86399) / 86400)
  let secs := t - days * 86400
  let ymd := civilFromDays days
  pad4 ymd.1 ++ "-" ++ pad2 ymd.2.1.toNat ++ "-" ++ pad2 ymd.2.2.toNat ++ "T" ++
    pad2 (secs / 3600).toNat ++ ":" ++ pad2 ((secs % 3600) / 60).toNat ++ ":" ++
    pad2 (secs % 60).toNat ++ "Z"

/-- The per-package body of the two `ListInstalled` loops: set the
cask/formula discriminator, then derive the install date when the first
installed-version record exists and carries a positive timestamp. The Go code
repeats this body inline in both loops. -/
def tagPackage (isCask : Bool) (pkg0 : Package) : Package :=
  let pkg := { pkg0 with isCask := isCask }
  match pkg.installed with
  | v :: _ =>
    if v.installedTime > 0 then { pkg with installDate := rfc3339Format v.installedTime }
    else pkg
  | [] => pkg

/-- service.go `ListInstalled`, as a function of the decoded
`brewInfoResponse`: the formulae loop appends first, then the casks loop. -/
def ListInstalled (result : brewInfoResponse) : List Package :=
  let packages : List Package := []
  let packages := result.formulae.foldl (fun packages pkg => packages ++ [tagPackage false pkg]) packages
  let packages := result.casks.foldl (fun packages pkg => packages ++ [tagPackage true pkg]) packages
  packages

/-! ## Sample data for concrete instantiations -/

/-- A concrete formula entry as decoded from `brew info --installed --json=v2`. -/
def sampleFormula : Package :=
  ⟨"wget", "wget", "Internet file retriever", "https://www.gnu.org/software/wget/", "1.24",
    [⟨"1.24", true, false, 1700000000⟩], false, false, [], [], "", [], 0, "", false⟩

/-- A concrete cask entry (no recorded install timestamp). -/
def sampleCask : Package :=
  ⟨"vlc", "vlc", "Media player", "https://www.videolan.org/", "3.0",
    [⟨"3.0", true, false, 0⟩], false, false, [], [], "", [], 0, "", false⟩

/-- A decode result with one formula and one cask. -/
def sampleResponse : brewInfoResponse := ⟨[sampleFormula], [sampleCask]⟩

/-! ## Helper lemmas -/

theorem foldl_append_singleton {α β : Type} (f : α → β) (xs : List α) (acc : List β) :
    xs.foldl (fun acc x => acc ++ [f x]) acc = acc ++ xs.map f := by
  induction xs generalizing acc with
  | nil => simp
  | cons x xs ih => simp [List.foldl_cons, ih]

theorem listInstalled_eq_maps (r : brewInfoResponse) :
    ListInstalled r = r.formulae.map (tagPackage false) ++ r.casks.map (tagPackage true) := by
  unfold ListInstalled
  dsimp only
  rw [foldl_append_singleton, foldl_append_singleton]
  simp

theorem strAppend_z_ne_empty (s : String) : s ++ "Z" ≠ "" := by
  intro h
  have h2 := congrArg String.length h
  rw [String.length_append] at h2
  have hz : ("Z" : String).length = 1 := rfl
  have he : ("" : String).length = 0 := rfl
  omega

theorem rfc3339Format_ne_empty (t : Int) : rfc3339Format t ≠ "" := by
  unfold rfc3339Format
  exact strAppend_z_ne_empty _

theorem tagPackage_isCask (b : Bool) (p : Package) : (tagPackage b p).isCask = b := by
  cases h : p.installed with
  | nil => simp [tagPackage, h]
  | cons v rest => by_cases ht : v.installedTime > 0 <;> simp [tagPackage, h, ht]

theorem tagPackage_name (b : Bool) (p : Package) : (tagPackage b p).name = p.name := by
  cases h : p.installed with
  | nil => simp [tagPackage, h]
  | cons v rest => by_cases ht : v.installedTime > 0 <;> simp [tagPackage, h, ht]

theorem tagPackage_installed (b : Bool) (p : Package) :
    (tagPackage b p).installed = p.installed := by
  cases h : p.installed with
  | nil => simp [tagPackage, h]
  | cons v rest => by_cases ht : v.installedTime > 0 <;> simp [tagPackage, h, ht]

theorem tagPackage_installDate (b : Bool) (p : Package) (hclean : p.installDate = "") :
    ((tagPackage b p).installDate ≠ ""
      ↔ ∃ v rest, p.installed = v :: rest ∧ v.installedTime > 0) := by
  cases h : p.installed with
  | nil => simp [tagPackage, h, hclean]
  | cons v rest =>
    by_cases ht : v.installedTime > 0
    · simp only [tagPackage, h, if_pos ht]
      constructor
      · intro _; exact ⟨v, rest, rfl, ht⟩
      · intro _; exact rfc3339Format_ne_empty v.installedTime
    · simp only [tagPackage, h, if_neg ht]
      simp only [hclean]
      constructor
      · intro hc; exact absurd rfl hc
      · rintro ⟨v', rest', hvv, htv⟩
        obtain ⟨rfl, rfl⟩ : v' = v ∧ rest' = rest := by
          injection hvv.symm with h1 h2; exact ⟨h1, h2⟩
        exact absurd htv ht

/-! ## Claim theorems -/

/-- C1: a process-runner invocation whose governing deadline expires before
the external process finishes returns a `TimeoutError` carrying the joined
command and the configured timeout — never a `CommandError` — regardless of
the exit status the process would eventually have produced; a process that
exits nonzero without the deadline expiring yields a `CommandError` instead. -/
theorem runBrewCommand_timeout_vs_exit
    (commandTimeout : Nat) (args : List String) (p : ProcSim) :
    (commandTimeout < p.duration →
      runBrewCommand commandTimeout args p
        = .error (.timeout (String.intercalate " " args) commandTimeout)) ∧
    (p.duration ≤ commandTimeout → p.exitCode ≠ 0 →
      runBrewCommand commandTimeout args p
        = .error (.command (args.headD "") (args.drop 1) (truncateStderr p.stderr))) := by
  constructor
  · intro h
    simp [runBrewCommand, h]
  · intro h1 h2
    simp [runBrewCommand, Nat.not_lt.mpr h1, h2]

/-- Witness for C1: the claim instantiated on a run that overshoots a
5-unit deadline (would have exited 0) and on a quick nonzero exit. -/
theorem runBrewCommand_timeout_vs_exit_witness :
    runBrewCommand 5 ["doctor"] ⟨10, 0, "", ""⟩ = .error (.timeout "doctor" 5) ∧
    runBrewCommand 300 ["doctor"] ⟨10, 1, "", "bad"⟩
      = .error (.command "doctor" [] (truncateStderr "bad")) := by
  constructor
  · have h := (runBrewCommand_timeout_vs_exit 5 ["doctor"] ⟨10, 0, "", ""⟩).1 (by decide)
    rw [h]; rfl
  · exact (runBrewCommand_timeout_vs_exit 300 ["doctor"] ⟨10, 1, "", "bad"⟩).2
      (by decide) (by decide)

/-- C2: the doctor operation swallows a `CommandError`, using its captured
stderr as the diagnostic text to parse; any other error kind (timeout,
validation, unexpected) propagates and no result is produced; the handler's
isHealthy boolean is true iff the parsed issue list is empty. -/
theorem Doctor_error_handling :
    (∀ cmd args stderr,
      Doctor (.error (.command cmd args stderr)) = .ok (stderr, parseDoctorOutput stderr)) ∧
    (∀ cmd t, Doctor (.error (.timeout cmd t)) = .error (.timeout cmd t)) ∧
    (∀ f v m, Doctor (.error (.validation f v m)) = .error (.validation f v m)) ∧
    (∀ m, Doctor (.error (.other m)) = .error (.other m)) ∧
    (∀ output, Doctor (.ok output) = .ok (output, parseDoctorOutput output)) ∧
    (∀ issues : List DoctorIssue, doctorIsHealthy issues = true ↔ issues = []) := by
  refine ⟨fun _ _ _ => rfl, fun _ _ => rfl, fun _ _ _ => rfl, fun _ => rfl, fun _ => rfl, ?_⟩
  intro issues
  cases issues <;> simp [doctorIsHealthy]

/-- C3: for a non-empty query within the length cap, a `CommandError` from the
underlying process makes the search return the explicit empty slice with no
error, while a `TimeoutError` propagates; an over-long query yields a
`ValidationError` whose value does not depend on any process outcome (no
process invocation). -/
theorem Search_error_handling :
    (∀ query, query ≠ "" → goStrLen query ≤ maxPackageNameLength →
      (∀ c a st, Search query (.error (.command c a st)) = .ok GoStrSlice.emptySlice) ∧
      (∀ c t, Search query (.error (.timeout c t)) = .error (.timeout c t))) ∧
    (∀ query, goStrLen query > maxPackageNameLength →
      ∀ runResult, Search query runResult
        = .error (.validation "query" (takeChars 20 query ++ "...") "search query too long")) := by
  constructor
  · intro query hq hlen
    constructor
    · intro c a st
      simp [Search, hq, Nat.not_lt.mpr hlen]
    · intro c t
      simp [Search, hq, Nat.not_lt.mpr hlen]
  · intro query hgt runResult
    have hne : query ≠ "" := by
      intro h; subst h; exact absurd hgt (by decide)
    simp [Search, hne, hgt]

/-- Witness for C3: the claim instantiated on the query "wget" with a
command failure and a timeout, and on a 129-character query. -/
theorem Search_error_handling_witness :
    Search "wget" (.error (.command "search" ["wget"] "no matches")) = .ok GoStrSlice.emptySlice ∧
    Search "wget" (.error (.timeout "search wget" 300)) = .error (.timeout "search wget" 300) ∧
    Search (String.mk (List.replicate 129 'a')) (.ok "anything")
      = .error (.validation "query" (String.mk (List.replicate 20 'a') ++ "...")
          "search query too long") := by
  refine ⟨?_, ?_, ?_⟩
  · exact (Search_error_handling.1 "wget" (by decide) (by decide)).1 "search" ["wget"] "no matches"
  · exact (Search_error_handling.1 "wget" (by decide) (by decide)).2 "search wget" 300
  · have h := Search_error_handling.2 (String.mk (List.replicate 129 'a')) (by decide) (.ok "anything")
    rw [h]; rfl

/-- C4: the HTTP error mapping is total over the four-kind taxonomy:
ValidationError maps to 400 with a details map naming the field, TimeoutError
to 504, CommandError to 500 with a fixed sanitized message that is
independent of the captured stderr, and any other error to 500 with a
generic internal-error message. -/
theorem handleBrewError_total_mapping :
    (∀ f v m, handleBrewError (.validation f v m)
      = ⟨400, "VALIDATION_ERROR", m, some [("field", f)]⟩) ∧
    (∀ c t, handleBrewError (.timeout c t)
      = ⟨504, "TIMEOUT", "Operation timed out. The Homebrew command took too long to complete.",
          none⟩) ∧
    (∀ c a st, handleBrewError (.command c a st)
      = ⟨500, "INTERNAL_ERROR", "Homebrew command failed. Check server logs for details.",
          none⟩) ∧
    (∀ c a st st',
      (handleBrewError (.command c a st)).message = (handleBrewError (.command c a st')).message) ∧
    (∀ m, handleBrewError (.other m)
      = ⟨500, "INTERNAL_ERROR", "An unexpected error occurred.", none⟩) ∧
    (∀ e, (handleBrewError e).status = 400 ∨ (handleBrewError e).status = 500 ∨
      (handleBrewError e).status = 504) := by
  refine ⟨fun _ _ _ => rfl, fun _ _ => rfl, fun _ _ _ => rfl, fun _ _ _ _ => rfl,
    fun _ => rfl, ?_⟩
  intro e
  cases e <;> simp [handleBrewError]

/-- C5: every string within the 128-byte cap that matches the allow-list
pattern validates; every string violating the cap or the pattern fails with a
ValidationError on field "name"; the empty string fails with a message
containing "required"; 129 'a' characters fail with the length-exceeded
message and a value of exactly the first 20 characters plus "...". -/
theorem validatePackageName_spec :
    (∀ s, goStrLen s ≤ maxPackageNameLength → packageNameRegexMatches s = true →
      validatePackageName s = none) ∧
    (∀ s, goStrLen s > maxPackageNameLength ∨ packageNameRegexMatches s = false →
      ∃ v m, validatePackageName s = some (.validation "name" v m)) ∧
    (validatePackageName "" = some (.validation "name" "" "package name is required") ∧
      strContains "package name is required" "required" = true) ∧
    (validatePackageName (String.mk (List.replicate 129 'a'))
      = some (.validation "name" (String.mk (List.replicate 20 'a') ++ "...")
          "package name exceeds maximum length of 128")) := by
  refine ⟨?_, ?_, by decide, by decide⟩
  · intro s hlen hmatch
    have hne : s ≠ "" := by
      intro h; subst h; exact absurd hmatch (by decide)
    simp [validatePackageName, hne, Nat.not_lt.mpr hlen, hmatch]
  · intro s h
    by_cases hs : s = ""
    · subst hs
      exact ⟨"", "package name is required", by decide⟩
    · by_cases hlen : goStrLen s > maxPackageNameLength
      · refine ⟨takeChars 20 s ++ "...",
          "package name exceeds maximum length of " ++ toString maxPackageNameLength, ?_⟩
        simp [validatePackageName, hs, hlen]
      · have hp : packageNameRegexMatches s = false := by
          rcases h with h | h
          · exact absurd h hlen
          · exact h
        refine ⟨s,
          "package name contains invalid characters; must match pattern: ^[a-zA-Z0-9][a-zA-Z0-9@._+-]*$", ?_⟩
        simp [validatePackageName, hs, hlen, hp]

/-- Witness for C5: the success clause instantiated on "wget". -/
theorem validatePackageName_spec_witness : validatePackageName "wget" = none :=
  validatePackageName_spec.1 "wget" (by decide) (by decide)

/-- C6: the package listing is exactly the decoded formulae followed by the
decoded casks (no deduplication, lengths add); formulae are tagged is_cask
false and casks true; given decoded entries with no preexisting install_date
field, the derived install date is non-empty iff the first installed-version
record exists and carries a timestamp strictly greater than zero. -/
theorem ListInstalled_concat_spec (r : brewInfoResponse)
    (hclean : ∀ p ∈ r.formulae ++ r.casks, p.installDate = "") :
    ListInstalled r = r.formulae.map (tagPackage false) ++ r.casks.map (tagPackage true) ∧
    (ListInstalled r).length = r.formulae.length + r.casks.length ∧
    (∀ p ∈ r.formulae, (tagPackage false p).isCask = false) ∧
    (∀ p ∈ r.casks, (tagPackage true p).isCask = true) ∧
    (∀ q ∈ ListInstalled r,
      (q.installDate ≠ "" ↔ ∃ v rest, q.installed = v :: rest ∧ v.installedTime > 0)) := by
  refine ⟨listInstalled_eq_maps r, ?_,
    fun p _ => tagPackage_isCask false p, fun p _ => tagPackage_isCask true p, ?_⟩
  · rw [listInstalled_eq_maps]
    simp
  · intro q hq
    rw [listInstalled_eq_maps] at hq
    rcases List.mem_append.mp hq with hq | hq
    · obtain ⟨p, hp, rfl⟩ := List.mem_map.mp hq
      rw [tagPackage_installed]
      exact tagPackage_installDate false p (hclean p (List.mem_append.mpr (Or.inl hp)))
    · obtain ⟨p, hp, rfl⟩ := List.mem_map.mp hq
      rw [tagPackage_installed]
      exact tagPackage_installDate true p (hclean p (List.mem_append.mpr (Or.inr hp)))

/-- Witness for C6: a decode result with one formula and one cask lists
exactly two packages. -/
theorem ListInstalled_concat_spec_witness :
    (ListInstalled sampleResponse).length = 2 := by
  have h := (ListInstalled_concat_spec sampleResponse (by decide)).2.1
  rw [h]; rfl

/-- C7: the diagnostic parser maps the spec's example to exactly a warning
then an error; a blank line flushes a non-empty accumulator as an issue
classified error iff the accumulated text case-insensitively contains
"error"; a line starting with "Warning:" or "Error:" flushes any pending
accumulator and starts a new one from that line; any other non-blank line is
space-joined onto the non-empty current accumulator. -/
theorem parseDoctorOutput_spec :
    parseDoctorOutput "Warning: foo bar\n\nError: baz\nqux\n"
      = [⟨"warning", "Warning: foo bar"⟩, ⟨"error", "Error: baz qux"⟩] ∧
    (∀ issues currentIssue, currentIssue ≠ "" →
      parseDoctorStep issues currentIssue ""
        = (issues ++
            [⟨if strContains (lowerAscii currentIssue) "error" then "error" else "warning",
              currentIssue⟩], "")) ∧
    (∀ issues currentIssue line, trimSpace line = line →
      (strStarts line "Warning:" || strStarts line "Error:") = true →
      parseDoctorStep issues currentIssue line
        = ((if currentIssue = "" then issues
            else issues ++
              [⟨if strContains (lowerAscii currentIssue) "error" then "error" else "warning",
                currentIssue⟩]), line)) ∧
    (∀ issues currentIssue line, trimSpace line = line → line ≠ "" →
      (strStarts line "Warning:" || strStarts line "Error:") = false →
      currentIssue ≠ "" →
      parseDoctorStep issues currentIssue line = (issues, currentIssue ++ " " ++ line)) := by
  refine ⟨by decide, ?_, ?_, ?_⟩
  · intro issues cur hcur
    simp [parseDoctorStep, trimSpace, hcur, classifyIssueType]
  · intro issues cur line hTrim hHead
    have hne : line ≠ "" := by
      intro h
      subst h
      exact absurd hHead (by decide)
    by_cases hc : cur = "" <;>
      simp [parseDoctorStep, hTrim, hne, hHead, hc, classifyIssueType]
  · intro issues cur line hTrim hne hHead hcur
    simp [parseDoctorStep, hTrim, hne, hHead, hcur]

/-- Witness for C7: the blank-line flush clause applied to a concrete
accumulator containing "Error". -/
theorem parseDoctorOutput_spec_witness :
    parseDoctorStep [] "Error: baz qux" "" = ([⟨"error", "Error: baz qux"⟩], "") := by
  have h := parseDoctorOutput_spec.2.1 [] "Error: baz qux" (by decide)
  rw [h]; rfl

/-- C8 counterexample: on empty input the search parser returns the Go nil
slice (`var results []string` is never appended to), which JSON-marshals to
`null`, not the explicit empty slice the claim requires. -/
theorem parseSearchOutput_empty_counterexample :
    (parseSearchOutput "").isNil = true ∧
    parseSearchOutput "" ≠ GoStrSlice.emptySlice ∧
    marshalStrSlice (parseSearchOutput "") = "null" := by decide

theorem dedupFirstOrder_congr : ∀ (xs s1 s2 : List String),
    (∀ y, y ∈ s1 ↔ y ∈ s2) → dedupFirstOrder s1 xs = dedupFirstOrder s2 xs := by
  intro xs
  induction xs with
  | nil => intro _ _ _; rfl
  | cons x xs ih =>
    intro s1 s2 h
    unfold dedupFirstOrder
    by_cases hm : x ∈ s2
    · rw [if_pos ((h x).mpr hm), if_pos hm]
      exact ih s1 s2 h
    · rw [if_neg (fun hx => hm ((h x).mp hx)), if_neg hm]
      exact congrArg (x :: ·) (ih (x :: s1) (x :: s2) (fun y => by simp [List.mem_cons, h y]))

theorem searchStep_foldl : ∀ (xs : List String) (acc : GoStrSlice),
    (xs.foldl searchStep acc).elems
      = acc.elems ++ dedupFirstOrder acc.elems
          (xs.filter (fun f => !(f = "==>" || f = "Formulae" || f = "Casks"))) := by
  intro xs
  induction xs with
  | nil => intro acc; simp [dedupFirstOrder]
  | cons x xs ih =>
    intro acc
    rw [List.foldl_cons, List.filter_cons]
    by_cases hhdr : (x = "==>" || x = "Formulae" || x = "Casks" : Bool) = true
    · have hstep : searchStep acc x = acc := by
        unfold searchStep
        rw [if_pos hhdr]
      rw [hstep, ih acc]
      simp [hhdr]
    · have hhdr' : (x = "==>" || x = "Formulae" || x = "Casks" : Bool) = false :=
        eq_false_of_ne_true hhdr
      by_cases hmem : x ∈ acc.elems
      · have hstep : searchStep acc x = acc := by
          unfold searchStep
          rw [if_neg (by simp [hhdr']), if_pos (by simpa [List.elem_iff] using hmem)]
        rw [hstep, ih acc]
        have hfilter : (if ((fun f : String => !(f = "==>" || f = "Formulae" || f = "Casks")) x)
            then x :: xs.filter (fun f => !(f = "==>" || f = "Formulae" || f = "Casks"))
            else xs.filter (fun f => !(f = "==>" || f = "Formulae" || f = "Casks")))
            = x :: xs.filter (fun f => !(f = "==>" || f = "Formulae" || f = "Casks")) := by
          simp [hhdr']
        rw [hfilter]
        congr 1
        have hd : dedupFirstOrder acc.elems
            (x :: xs.filter (fun f => !(f = "==>" || f = "Formulae" || f = "Casks")))
            = dedupFirstOrder acc.elems
                (xs.filter (fun f => !(f = "==>" || f = "Formulae" || f = "Casks"))) := by
          simp only [dedupFirstOrder]
          rw [if_pos hmem]
        rw [hd]
      · have hstep : searchStep acc x = acc.push x := by
          unfold searchStep
          rw [if_neg (by simp [hhdr']), if_neg (by simp [List.elem_iff, hmem])]
        rw [hstep, ih (acc.push x)]
        have hfilter : (if ((fun f : String => !(f = "==>" || f = "Formulae" || f = "Casks")) x)
            then x :: xs.filter (fun f => !(f = "==>" || f = "Formulae" || f = "Casks"))
            else xs.filter (fun f => !(f = "==>" || f = "Formulae" || f = "Casks")))
            = x :: xs.filter (fun f => !(f = "==>" || f = "Formulae" || f = "Casks")) := by
          simp [hhdr']
        rw [hfilter]
        have hd : dedupFirstOrder acc.elems
            (x :: xs.filter (fun f => !(f = "==>" || f = "Formulae" || f = "Casks")))
            = x :: dedupFirstOrder (x :: acc.elems)
                (xs.filter (fun f => !(f = "==>" || f = "Formulae" || f = "Casks"))) := by
          simp only [dedupFirstOrder]
          rw [if_neg hmem]
        rw [hd]
        show (acc.elems ++ [x]) ++ _ = _
        rw [List.append_assoc, List.singleton_append]
        congr 2
        exact dedupFirstOrder_congr _ (acc.elems ++ [x]) (x :: acc.elems)
          (fun y => by simp [List.mem_append, List.mem_cons, or_comm])

/-- C8 (amended): the search-output parser tokenizes on whitespace, discards
the "==>", "Formulae" and "Casks" tokens, deduplicates by first occurrence
preserving first-seen order, and maps the spec's example to exactly
["wget","curl","vlc"]; on empty input it returns a zero-element slice that is
the Go nil slice (marshalling to null), and the HTTP handler's nil
normalization turns it into the explicit empty slice, so the endpoint emits
[] and never null. -/
theorem parseSearchOutput_amended_spec :
    (parseSearchOutput "==> Formulae\nwget curl\n==> Casks\nvlc").elems
      = ["wget", "curl", "vlc"] ∧
    (parseSearchOutput "==> Formulae\nwget curl\n==> Casks\nvlc").isNil = false ∧
    (parseSearchOutput "").elems = [] ∧
    normalizeStrSlice (parseSearchOutput "") = GoStrSlice.emptySlice ∧
    marshalStrSlice (normalizeStrSlice (parseSearchOutput "")) = "[]" ∧
    (∀ output, (parseSearchOutput output).elems
      = dedupFirstOrder []
          ((strFields output).filter
            (fun f => !(f = "==>" || f = "Formulae" || f = "Casks")))) := by
  refine ⟨by decide, by decide, by decide, by decide, by decide, ?_⟩
  intro output
  have h := searchStep_foldl (strFields output) GoStrSlice.nilSlice
  simpa [parseSearchOutput, GoStrSlice.nilSlice] using h

/-- C9: the usage/doc lookup fails only on name validation; for a valid name,
a failed fetch, empty content, or content carrying the "Unknown topic" marker
all fall back to the external tool's info command wrapped with an explanatory
preamble, and a failing fallback (any error kind, timeouts included) still
produces the apologetic text with no error. -/
theorem GetPackageUsage_spec :
    (∀ name e cheat info, validatePackageName name = some e →
      GetPackageUsage name cheat info = .error e) ∧
    (∀ name cheat info, validatePackageName name = none →
      ∃ s, GetPackageUsage name cheat info = .ok s) ∧
    (∀ name msg info, validatePackageName name = none →
      GetPackageUsage name (.error msg) info = brewInfoFallback info) ∧
    (∀ name cheat info, validatePackageName name = none →
      (cheat = "" ∨ strContains cheat "Unknown topic" = true) →
      GetPackageUsage name (.ok cheat) info = brewInfoFallback info) ∧
    (∀ name cheat info, validatePackageName name = none →
      cheat ≠ "" → strContains cheat "Unknown topic" = false →
      GetPackageUsage name (.ok cheat) info = .ok cheat) ∧
    (∀ e, brewInfoFallback (.error e)
      = .ok "No usage examples found. 'brew info' also failed.") ∧
    (∀ output, brewInfoFallback (.ok output)
      = .ok ("No community cheat sheet found. Showing 'brew info' output:\n\n" ++ output)) := by
  refine ⟨?_, ?_, ?_, ?_, ?_, fun _ => rfl, fun _ => rfl⟩
  · intro name e cheat info hv
    unfold GetPackageUsage
    rw [hv]
  · intro name cheat info hv
    unfold GetPackageUsage
    rw [hv]
    dsimp only
    cases cheat with
    | error msg => cases info <;> exact ⟨_, rfl⟩
    | ok c =>
      dsimp only
      by_cases hc : (c ≠ "" && !strContains c "Unknown topic") = true
      · rw [if_pos hc]
        exact ⟨c, rfl⟩
      · rw [if_neg hc]
        cases info <;> exact ⟨_, rfl⟩
  · intro name msg info hv
    unfold GetPackageUsage
    rw [hv]
  · intro name cheat info hv hbad
    unfold GetPackageUsage
    rw [hv]
    dsimp only
    have hc : (cheat ≠ "" && !strContains cheat "Unknown topic") = false := by
      rcases hbad with h | h
      · subst h
        simp
      · simp only [h, Bool.not_true, Bool.and_false]
    rw [if_neg (by simp only [hc]; decide)]
  · intro name cheat info hv hne hmarker
    unfold GetPackageUsage
    rw [hv]
    dsimp only
    rw [if_pos (by simp [hne, hmarker])]

/-- Witness for C9: a valid name with a usable cheat sheet returns it. -/
theorem GetPackageUsage_spec_witness :
    GetPackageUsage "wget" (.ok "wget usage examples") (.ok "info text")
      = .ok "wget usage examples" :=
  GetPackageUsage_spec.2.2.2.2.1 "wget" "wget usage examples" (.ok "info text")
    (by decide) (by decide) (by decide)

/-- C10: every package returned by a listing over trusted CLI output (all
decoded entries carry a non-empty name) has a non-empty name. -/
theorem ListInstalled_names_nonempty (r : brewInfoResponse)
    (h : ∀ p ∈ r.formulae ++ r.casks, p.name ≠ "") :
    ∀ q ∈ ListInstalled r, q.name ≠ "" := by
  intro q hq
  rw [listInstalled_eq_maps] at hq
  rcases List.mem_append.mp hq with hq | hq
  · obtain ⟨p, hp, rfl⟩ := List.mem_map.mp hq
    rw [tagPackage_name]
    exact h p (List.mem_append.mpr (Or.inl hp))
  · obtain ⟨p, hp, rfl⟩ := List.mem_map.mp hq
    rw [tagPackage_name]
    exact h p (List.mem_append.mpr (Or.inr hp))

/-- Witness for C10: the name invariant applied to the listed sample formula. -/
theorem ListInstalled_names_nonempty_witness :
    (tagPackage false sampleFormula).name ≠ "" :=
  ListInstalled_names_nonempty sampleResponse (by decide)
    (tagPackage false sampleFormula) (by decide)

end CheersMate
